import Mathlib

/-!
Shallow embedding of the adaptive character-classification core in
src/tess-two/jni/com_googlecode_tesseract_android/src/classify/adaptmatch.cpp.

FLOAT32/double score arithmetic is modelled over the rationals; C int and
inT16/inT32 values are modelled as Int (no claim below depends on overflow
behaviour, and all concrete inputs are tiny).  The fixed-size C arrays
(ScoredClass match[MAX_NUM_CLASSES]) are modelled as lists; the NumMatches
counter is the list length.
-/

/-- Tunable globals read by adaptmatch.cpp.  Their declarations live in
classify.h/classify.cpp (outside this translation unit), so no default values
are assumed here: every theorem quantifies over them or fixes them
explicitly. -/
structure Params where
  matcher_bad_match_pad : ℚ
  matcher_great_threshold : ℚ
  matcher_avg_noise_size : ℚ
  matcher_permanent_classes_min : Int
  tess_cn_matching : Bool
  tess_bn_matching : Bool
  classify_bln_numeric_mode : Bool
  use_ambigs_for_adaption : Bool
  matcher_min_examples_for_prototyping : Int
  matcher_sufficient_examples_for_prototyping : Int
  tessedit_class_miss_scale : ℚ
  classify_misfit_junk_penalty : ℚ

/-- The slice of the UNICHARSET interface used by adaptmatch.cpp (the
UNICHARSET class itself lives in ccutil/, outside this translation unit);
each field abstracts the corresponding query.  get_fragment is modelled as a
Bool (C code only tests the returned pointer against NULL). -/
structure Unicharset where
  get_fragment : Int → Bool
  get_isalpha : Int → Bool
  get_isdigit : Int → Bool
  id_to_unichar : Int → String
  contains_unichar : String → Bool
  unichar_to_id : String → Int
  get_top_bottom : Int → Int × Int × Int × Int

/-- Modelled from the spec: the sentinel class id NONE used for the synthetic
noise candidate ("a synthetic noise Candidate at ClassId = NONE"); the macro
NO_CLASS itself is defined in matchdefs.h, outside src/. -/
def NO_CLASS : Int := 0

/-- Modelled from the spec: the blank font id sentinel (kBlankFontinfoId is
defined in classify.cpp, outside src/); its concrete value is irrelevant to
every claim, only its use as a filler. -/
def kBlankFontinfoId : Int := -1

/-- WORST_POSSIBLE_RATING, adaptmatch.cpp line 79. -/
def WORST_POSSIBLE_RATING : ℚ := 1

/-- MAX_MATCHES, adaptmatch.cpp line 70. -/
def MAX_MATCHES : Nat := 10

/-- struct ScoredClass, adaptmatch.cpp lines 81-89. -/
structure ScoredClass where
  unichar_id : Int
  shape_id : Int
  rating : ℚ
  adapted : Bool
  config : Int
  fontinfo_id : Int
  fontinfo_id2 : Int
deriving DecidableEq, Repr

/-- struct ADAPT_RESULTS, adaptmatch.cpp lines 91-113 (CPResults omitted:
no claim reads it).  matchList models the match array together with
NumMatches. -/
structure ADAPT_RESULTS where
  BlobLength : Int
  matchList : List ScoredClass
  HasNonfragment : Bool
  best_match : ScoredClass
deriving DecidableEq, Repr

/-- ADAPT_RESULTS::Initialize, adaptmatch.cpp lines 101-112. -/
def ADAPT_RESULTS.Initialize : ADAPT_RESULTS :=
  { BlobLength := 2147483647
    matchList := []
    HasNonfragment := false
    best_match :=
      { unichar_id := NO_CLASS
        shape_id := -1
        rating := WORST_POSSIBLE_RATING
        adapted := false
        config := 0
        fontinfo_id := kBlankFontinfoId
        fontinfo_id2 := kBlankFontinfoId } }

/-- FindScoredUnichar, adaptmatch.cpp lines 1625-1631: pointer to the first
entry for the given unichar id, or NULL. -/
def FindScoredUnichar (r : ADAPT_RESULTS) (id : Int) : Option ScoredClass :=
  r.matchList.find? (fun m => m.unichar_id == id)

/-- ScoredUnichar, adaptmatch.cpp lines 1635-1641: the entry for the id, or
a default entry at WORST_POSSIBLE_RATING. -/
def ScoredUnichar (r : ADAPT_RESULTS) (id : Int) : ScoredClass :=
  match FindScoredUnichar r id with
  | none =>
      { unichar_id := id, shape_id := -1, rating := WORST_POSSIBLE_RATING,
        adapted := false, config := -1, fontinfo_id := kBlankFontinfoId,
        fontinfo_id2 := kBlankFontinfoId }
  | some entry => entry

/-- In-place update old_match->rating = rating (adaptmatch.cpp line 1163):
FindScoredUnichar returns a pointer to the first matching slot, so only the
first entry with the id is updated. -/
def setRatingFirst : List ScoredClass → Int → ℚ → List ScoredClass
  | [], _, _ => []
  | m :: rest, id, v =>
      if m.unichar_id == id then { m with rating := v } :: rest
      else m :: setRatingFirst rest id v

/-- Classify::AddNewResult, adaptmatch.cpp lines 1137-1176. -/
def AddNewResult (p : Params) (u : Unicharset) (r : ADAPT_RESULTS)
    (class_id shape_id : Int) (rating : ℚ) (adapted : Bool)
    (config fontinfo_id fontinfo_id2 : Int) : ADAPT_RESULTS :=
  let old_match := FindScoredUnichar r class_id
  let newMatch : ScoredClass :=
    { unichar_id := class_id, shape_id := shape_id, rating := rating,
      adapted := adapted, config := config, fontinfo_id := fontinfo_id,
      fontinfo_id2 := fontinfo_id2 }
  let rejected : Bool :=
    decide (rating > r.best_match.rating + p.matcher_bad_match_pad) ||
    (match old_match with
     | some old => decide (rating ≥ old.rating)
     | none => false)
  if rejected then r
  else
    let r1 := if u.get_fragment class_id then r
              else { r with HasNonfragment := true }
    let r2 := match old_match with
      | some _ => { r1 with matchList := setRatingFirst r1.matchList class_id rating }
      | none => { r1 with matchList := r1.matchList ++ [newMatch] }
    if rating < r2.best_match.rating ∧ ¬ u.get_fragment class_id then
      { r2 with best_match := newMatch }
    else r2

/-- TEMP_CONFIG as read by TempConfigReliable (the struct lives in
adaptive.h, outside src/; only NumTimesSeen is consulted here). -/
structure TEMP_CONFIG where
  NumTimesSeen : Int
deriving DecidableEq, Repr

/-- The two ADAPT_CLASS counters consulted by TempConfigReliable (the struct
lives in adaptive.h, outside src/): NumPermConfigs counts permanent configs
(a count, hence Nat) and MaxNumTimesSeen is the largest NumTimesSeen over the
configs of the class. -/
structure AdaptClassCounters where
  NumPermConfigs : Nat
  MaxNumTimesSeen : Int
deriving DecidableEq, Repr

/-- Classify::TempConfigReliable, adaptmatch.cpp lines 2763-2798.
ambigsForAdaption models getDict().getUnicharAmbigs().AmbigsForAdaption
(none = NULL pointer, which the code treats as size 0); classes models
AdaptedTemplates->Class indexed by class id. -/
def TempConfigReliable (p : Params)
    (ambigsForAdaption : Int → Option (List Int))
    (classes : Int → AdaptClassCounters)
    (class_id : Int) (config : TEMP_CONFIG) : Bool :=
  if config.NumTimesSeen ≥ p.matcher_sufficient_examples_for_prototyping then
    true
  else if config.NumTimesSeen < p.matcher_min_examples_for_prototyping then
    false
  else if p.use_ambigs_for_adaption then
    let ambigs := (ambigsForAdaption class_id).getD []
    ambigs.all (fun a =>
      ¬((classes a).NumPermConfigs = 0 ∧
        (classes a).MaxNumTimesSeen < p.matcher_min_examples_for_prototyping))
  else
    true

/-- Classify::ComputeCorrectedRating, adaptmatch.cpp lines 1355-1397.
applyCN abstracts im_.ApplyCNCorrection (the integer matcher is an external
collaborator, spec section 6); cn_factors models the uinT8 array (values are
nonnegative, the code only compares against 0). -/
def ComputeCorrectedRating (p : Params) (u : Unicharset)
    (applyCN : ℚ → Int → Int → ℚ)
    (unichar_id : Int) (im_rating : ℚ) (feature_misses : Int)
    (bottom top blob_length : Int) (cn_factors : Int → Int) : ℚ :=
  let cn_corrected := applyCN im_rating blob_length (cn_factors unichar_id)
  let miss_penalty := p.tessedit_class_miss_scale * (feature_misses : ℚ)
  let vertical_penalty : ℚ :=
    if ¬ u.get_isalpha unichar_id ∧ ¬ u.get_isdigit unichar_id ∧
        cn_factors unichar_id ≠ 0 ∧ p.classify_misfit_junk_penalty > 0 then
      let tb := u.get_top_bottom unichar_id
      let min_bottom := tb.1
      let max_bottom := tb.2.1
      let min_top := tb.2.2.1
      let max_top := tb.2.2.2
      if top < min_top ∨ top > max_top ∨
          bottom < min_bottom ∨ bottom > max_bottom then
        p.classify_misfit_junk_penalty
      else 0
    else 0
  let result := cn_corrected + miss_penalty + vertical_penalty
  if result > WORST_POSSIBLE_RATING then WORST_POSSIBLE_RATING else result

/-- The noise rating computed by ClassifyAsNoise (adaptmatch.cpp lines
1613-1615): Rating = x * x / (1 + x * x) for x = BlobLength / avg_noise_size. -/
def noiseRating (p : Params) (blobLength : Int) : ℚ :=
  let x : ℚ := (blobLength : ℚ) / p.matcher_avg_noise_size
  (x * x) / (1 + x * x)

/-- Classify::ClassifyAsNoise, adaptmatch.cpp lines 1610-1619. -/
def ClassifyAsNoise (p : Params) (u : Unicharset) (r : ADAPT_RESULTS) :
    ADAPT_RESULTS :=
  AddNewResult p u r NO_CLASS (-1) (noiseRating p r.BlobLength) false (-1)
    kBlankFontinfoId kBlankFontinfoId

/-- Head test on the -1 terminated UNICHAR_ID ambiguity array: the C checks
Ambiguities != NULL and *Ambiguities >= 0 (adaptmatch.cpp line 1821); the
array is modelled as the raw id list including positions up to the
terminator. -/
def ambigsHeadNonneg : Option (List Int) → Bool
  | none => false
  | some [] => false
  | some (a :: _) => a ≥ 0

/-- Which matching paths DoAdaptiveMatch executed (the synthetic noise step
is not a matching path and is tracked by the result contents instead). -/
inductive MatchPath where
  | CN : MatchPath
  | BL : MatchPath
  | AMB : MatchPath
deriving DecidableEq, Repr

/-- Classify::DoAdaptiveMatch, adaptmatch.cpp lines 1803-1836.  The three
sub-classifiers are external calls from this routine's point of view and are
passed as function parameters: charNorm models CharNormClassifier against
PreTrainedTemplates, baseline models BaselineClassifier against
AdaptedTemplates (returning the updated results and the Ambiguities pointer),
ambigCls models AmbigClassifier.  numPermClasses models
AdaptedTemplates->NumPermClasses.  This is the 3-branch matching phase
(lines 1811-1828); it returns the results plus the list of matching paths
run, in order. -/
def adaptiveMatchStep (p : Params) (numPermClasses : Int)
    (charNorm : ADAPT_RESULTS → ADAPT_RESULTS)
    (baseline : ADAPT_RESULTS → ADAPT_RESULTS × Option (List Int))
    (ambigCls : List Int → ADAPT_RESULTS → ADAPT_RESULTS)
    (r : ADAPT_RESULTS) : ADAPT_RESULTS × List MatchPath :=
  if numPermClasses < p.matcher_permanent_classes_min ∨
      p.tess_cn_matching then
    (charNorm r, [MatchPath.CN])
  else
    let br := baseline r
    let r1 := br.1
    let ambiguities := br.2
    if (r1.matchList.length > 0 ∧
        r1.best_match.rating > p.matcher_great_threshold ∧
        ¬ p.tess_bn_matching) ∨
        r1.matchList.length = 0 then
      (charNorm r1, [MatchPath.BL, MatchPath.CN])
    else if ambigsHeadNonneg ambiguities ∧ ¬ p.tess_bn_matching then
      (ambigCls (ambiguities.getD []) r1, [MatchPath.BL, MatchPath.AMB])
    else
      (r1, [MatchPath.BL])

/-- Classify::DoAdaptiveMatch, continued: the matching phase followed by the
fragments-only / no-match noise fallback (adaptmatch.cpp lines 1830-1835). -/
def DoAdaptiveMatch (p : Params) (u : Unicharset) (numPermClasses : Int)
    (charNorm : ADAPT_RESULTS → ADAPT_RESULTS)
    (baseline : ADAPT_RESULTS → ADAPT_RESULTS × Option (List Int))
    (ambigCls : List Int → ADAPT_RESULTS → ADAPT_RESULTS)
    (r : ADAPT_RESULTS) : ADAPT_RESULTS × List MatchPath :=
  let step1 := adaptiveMatchStep p numPermClasses charNorm baseline ambigCls r
  let r2 := step1.1
  if ¬ r2.HasNonfragment ∨ r2.matchList.length = 0 then
    (ClassifyAsNoise p u r2, step1.2)
  else
    (r2, step1.2)

/-- strstr(haystack, needle) != NULL for the static strings of
RemoveBadMatches/RemoveExtraPuncs: substring containment on the character
lists. -/
def strstrHit (haystack needle : String) : Bool :=
  (haystack.data.tails).any (fun t => needle.data.isPrefixOf t)

/-- The static romans string of RemoveBadMatches, adaptmatch.cpp line 2448. -/
def romans : String := "i v x I V X"

/-- Classify::RemoveBadMatches, adaptmatch.cpp lines 2445-2486.  The
Next/NextGood in-place compaction of the match array is modelled as a
filterMap producing the surviving prefix. -/
def RemoveBadMatches (p : Params) (u : Unicharset) (r : ADAPT_RESULTS) :
    ADAPT_RESULTS :=
  let badMatchThreshold := r.best_match.rating + p.matcher_bad_match_pad
  if p.classify_bln_numeric_mode then
    let unichar_id_one : Int :=
      if u.contains_unichar ("1") then u.unichar_to_id ("1") else -1
    let unichar_id_zero : Int :=
      if u.contains_unichar ("0") then u.unichar_to_id ("0") else -1
    let scored_one := ScoredUnichar r unichar_id_one
    let scored_zero := ScoredUnichar r unichar_id_zero
    { r with matchList := r.matchList.filterMap (fun m =>
        if m.rating ≤ badMatchThreshold then
          if ¬ u.get_isalpha m.unichar_id ∨
              strstrHit romans (u.id_to_unichar m.unichar_id) then
            some m
          else if u.id_to_unichar m.unichar_id = "l" ∧
              scored_one.rating ≥ badMatchThreshold then
            some { scored_one with rating := m.rating }
          else if u.id_to_unichar m.unichar_id = "O" ∧
              scored_zero.rating ≥ badMatchThreshold then
            some { scored_zero with rating := m.rating }
          else
            none
        else none) }
  else
    { r with matchList :=
        r.matchList.filter (fun m => m.rating ≤ badMatchThreshold) }

/-- BLOB_CHOICE as constructed by ConvertMatchesToChoices (the class lives in
ratngs.h, outside src/; the script pointer argument is omitted, no claim
reads it). -/
structure BLOB_CHOICE where
  unichar_id : Int
  rating : ℚ
  certainty : ℚ
  fontinfo_id : Int
  fontinfo_id2 : Int
  min_xheight : Int
  max_xheight : Int
  adapted : Bool
deriving DecidableEq, Repr

/-- The loop of ConvertMatchesToChoices, adaptmatch.cpp lines 1692-1725.
acc is the Choices list built so far (temp_it appends at the end);
rating_scale and certainty_scale model the globals of the same names;
xheightRange models denorm.XHeightRange.  The contains_nonfrag flag and the
fragment-deferral / capacity break conditions follow the source exactly. -/
def convertLoop (u : Unicharset) (blobLength : Int)
    (rating_scale certainty_scale : ℚ) (xheightRange : Int → Int × Int)
    (max_matches : Nat) :
    List ScoredClass → List BLOB_CHOICE → Bool → List BLOB_CHOICE
  | [], acc, _ => acc
  | next :: rest, acc, contains_nonfrag =>
      let current_is_frag := u.get_fragment next.unichar_id
      if acc.length + 1 = max_matches ∧ ¬ contains_nonfrag ∧
          current_is_frag then
        convertLoop u blobLength rating_scale certainty_scale xheightRange
          max_matches rest acc contains_nonfrag
      else
        let rc : ℚ × ℚ :=
          if blobLength = 0 then (100, -20)
          else (next.rating * (rating_scale * (blobLength : ℚ)),
                next.rating * (-certainty_scale))
        let xh := xheightRange next.unichar_id
        let acc' := acc ++
          [{ unichar_id := next.unichar_id, rating := rc.1,
             certainty := rc.2, fontinfo_id := next.fontinfo_id,
             fontinfo_id2 := next.fontinfo_id2, min_xheight := xh.1,
             max_xheight := xh.2, adapted := next.adapted }]
        if acc'.length ≥ max_matches then acc'
        else
          convertLoop u blobLength rating_scale certainty_scale xheightRange
            max_matches rest acc' (contains_nonfrag || !current_is_frag)

/-- Classify::ConvertMatchesToChoices, adaptmatch.cpp lines 1670-1727.
shapeTableMax models shape_table_ (none = NULL, some n =
shape_table_->MaxNumUnichars()); Choices arrives empty (the caller allocates
a fresh list). -/
def ConvertMatchesToChoices (u : Unicharset) (rating_scale certainty_scale : ℚ)
    (xheightRange : Int → Int × Int) (shapeTableMax : Option Nat)
    (r : ADAPT_RESULTS) : List BLOB_CHOICE :=
  let max_matches :=
    match shapeTableMax with
    | none => MAX_MATCHES
    | some n => if 2 * n < MAX_MATCHES then MAX_MATCHES else 2 * n
  convertLoop u r.BlobLength rating_scale certainty_scale xheightRange
    max_matches r.matchList [] false

/-- PERM_CONFIG payload of the ADAPT_CONFIG union: a -1 terminated ambiguity
id list plus a font id (struct in adaptive.h, outside src/; only the Ambigs
pointer is read by BaselineClassifier). -/
structure PERM_CONFIG_DATA where
  Ambigs : List Int
  FontinfoId : Int
deriving DecidableEq, Repr

/-- The ADAPT_CONFIG union of adaptive.h as a tagged variant: a config slot
is Temporary or Permanent (spec section 3 models it as a tagged union). -/
inductive ADAPT_CONFIG where
  | Temp : TEMP_CONFIG → ADAPT_CONFIG
  | Perm : PERM_CONFIG_DATA → ADAPT_CONFIG
deriving DecidableEq, Repr

/-- Whether a config slot holds the Permanent variant. -/
def ADAPT_CONFIG.isPermanent : ADAPT_CONFIG → Bool
  | ADAPT_CONFIG.Perm _ => true
  | ADAPT_CONFIG.Temp _ => false

/-- The union read Config[...].Perm->Ambigs at adaptmatch.cpp lines
1457-1458: reading the Perm arm is well-defined (some) only when the slot
holds the Permanent variant; reading it on a Temporary slot is the
invalid-variant access (none). -/
def readPermAmbigs : ADAPT_CONFIG → Option (List Int)
  | ADAPT_CONFIG.Perm d => some d.Ambigs
  | ADAPT_CONFIG.Temp _ => none

/-- The tail of Classify::BaselineClassifier, adaptmatch.cpp lines 1452-1458:
after matching, either return NULL (best match is NO_CLASS) or read
Templates->Class[ClassId]->Config[best_match.config].Perm->Ambigs.
classConfig models Templates->Class[id]->Config[cfg].  The outer Option is
definedness of the access (none = invalid-variant union read); the inner
Option is the returned pointer (none = NULL). -/
def BaselineClassifierAmbigs (classConfig : Int → Int → ADAPT_CONFIG)
    (r : ADAPT_RESULTS) : Option (Option (List Int)) :=
  if r.best_match.unichar_id = NO_CLASS then some none
  else
    match readPermAmbigs (classConfig r.best_match.unichar_id r.best_match.config) with
    | some ambigs => some (some ambigs)
    | none => none

/-- A heap of BLOB_CHOICE_LIST objects: addresses are indices, allocation
appends.  Used to model the pointer semantics of the empty-Choices fallback
at the end of AdaptiveClassifier. -/
abbrev ChoiceHeap : Type := List (List BLOB_CHOICE)

/-- Dereference a list pointer. -/
def heapRead (h : ChoiceHeap) (ptr : Nat) : List BLOB_CHOICE :=
  List.getD h ptr []

/-- Overwrite the object at a pointer. -/
def heapWrite (h : ChoiceHeap) (ptr : Nat) (v : List BLOB_CHOICE) : ChoiceHeap :=
  List.set h ptr v

/-- new BLOB_CHOICE_LIST(): allocate a fresh empty list, returning the new
heap and the fresh pointer. -/
def heapAlloc (h : ChoiceHeap) : ChoiceHeap × Nat :=
  (h ++ [[]], h.length)

/-- The fallback BLOB_CHOICE(0, 50.0f, -20.0f, -1, -1, NULL, 0, 0, false)
built at adaptmatch.cpp line 222 (script pointer omitted as in
BLOB_CHOICE above). -/
def fallbackChoice : BLOB_CHOICE :=
  { unichar_id := 0, rating := 50, certainty := -20, fontinfo_id := -1,
    fontinfo_id2 := -1, min_xheight := 0, max_xheight := 0, adapted := false }

/-- The empty-Choices fallback block of Classify::AdaptiveClassifier,
adaptmatch.cpp lines 215-223: Choices is a by-value pointer parameter, so
the assignment Choices = new BLOB_CHOICE_LIST() rebinds only the local
pointer; the caller keeps the original address.  Returns the heap after the
block together with the final value of the local Choices pointer. -/
def adaptiveClassifierEmptyFallback (h : ChoiceHeap) (choicesPtr : Nat) :
    ChoiceHeap × Nat :=
  if (heapRead h choicesPtr).length = 0 then
    let alloc := heapAlloc h
    let h1 := alloc.1
    let newPtr := alloc.2
    let h2 := heapWrite h1 newPtr [fallbackChoice]
    (h2, newPtr)
  else
    (h, choicesPtr)

/-- A unicharset with no fragments, no letters and no digits; concrete
scenarios below override only what they need. -/
def u0 : Unicharset :=
  { get_fragment := fun _ => false, get_isalpha := fun _ => false,
    get_isdigit := fun _ => false, id_to_unichar := fun _ => "",
    contains_unichar := fun _ => false, unichar_to_id := fun _ => -1,
    get_top_bottom := fun _ => (0, 0, 0, 0) }

/-- A concrete parameter valuation for counterexamples and witnesses
(matcher_bad_match_pad 0.15, the tesseract default). -/
def p0 : Params :=
  { matcher_bad_match_pad := 15/100, matcher_great_threshold := 9/10,
    matcher_avg_noise_size := 12, matcher_permanent_classes_min := 1,
    tess_cn_matching := false, tess_bn_matching := false,
    classify_bln_numeric_mode := false, use_ambigs_for_adaption := false,
    matcher_min_examples_for_prototyping := 3,
    matcher_sufficient_examples_for_prototyping := 5,
    tessedit_class_miss_scale := 3/100, classify_misfit_junk_penalty := 1/2 }

/-- An entry for class 5 rated 0.5. -/
def entry5 : ScoredClass :=
  { unichar_id := 5, shape_id := -1, rating := 1/2, adapted := false,
    config := 0, fontinfo_id := -1, fontinfo_id2 := -1 }

/-- An entry for class 7 rated 0.1. -/
def entry7 : ScoredClass :=
  { unichar_id := 7, shape_id := -1, rating := 1/10, adapted := false,
    config := 0, fontinfo_id := -1, fontinfo_id2 := -1 }

/-- A reachable ResultSet: class 5 added at rating 0.5 while best was the
1.0 sentinel, then class 7 added at rating 0.1 (the new best); reachability
from Initialize is proved in rC1pre_reachable below. -/
def rC1pre : ADAPT_RESULTS :=
  { BlobLength := 2147483647, matchList := [entry5, entry7],
    HasNonfragment := true, best_match := entry7 }

/-- The rejection condition of AddNewResult as the (amended) claim states
it: the candidate is too far beyond the best rating, or an entry for the
class already exists whose rating is equal-or-better (at most the new
rating). -/
def addRejectCond (p : Params) (r : ADAPT_RESULTS) (class_id : Int)
    (rating : ℚ) : Prop :=
  rating > r.best_match.rating + p.matcher_bad_match_pad ∨
  ∃ old, FindScoredUnichar r class_id = some old ∧ old.rating ≤ rating

/-- Argument bundle for one AddNewResult call. -/
structure AddArgs where
  class_id : Int
  shape_id : Int
  rating : ℚ
  adapted : Bool
  config : Int
  fontinfo_id : Int
  fontinfo_id2 : Int

/-- A sequence of AddNewResult calls applied in order. -/
def applyAdds (p : Params) (u : Unicharset) (adds : List AddArgs)
    (r : ADAPT_RESULTS) : ADAPT_RESULTS :=
  adds.foldl (fun acc a =>
    AddNewResult p u acc a.class_id a.shape_id a.rating a.adapted a.config
      a.fontinfo_id a.fontinfo_id2) r

/-- Ambiguity table for the TempConfigReliable scenarios: class 1 has the
ambiguous-for-adaption set {2}; every other class has none (NULL). -/
def ambigsC2 : Int → Option (List Int) :=
  fun c => if c = 1 then some [2] else none

/-- Adapted-class counters for the TempConfigReliable scenarios: every class
has no permanent configs and has never been seen. -/
def classesC2 : Int → AdaptClassCounters :=
  fun _ => { NumPermConfigs := 0, MaxNumTimesSeen := 0 }

/-- The vertical penalty as the claim words it (used to compare against the
source ComputeCorrectedRating): the fixed constant classify_misfit_junk_penalty
exactly when the class is neither alphabetic nor a digit, its normalization
factor is nonzero, and the blob's top or bottom falls outside the class's
recorded [min,max] top/bottom range; 0 otherwise. -/
def verticalPenaltyClaim (p : Params) (u : Unicharset) (unichar_id : Int)
    (bottom top : Int) (cn_factors : Int → Int) : ℚ :=
  let tb := u.get_top_bottom unichar_id
  if u.get_isalpha unichar_id = false ∧ u.get_isdigit unichar_id = false ∧
      cn_factors unichar_id ≠ 0 ∧
      (top < tb.2.2.1 ∨ top > tb.2.2.2 ∨ bottom < tb.1 ∨ bottom > tb.2.1) then
    p.classify_misfit_junk_penalty
  else 0

/-- A unicharset for the rating-correction scenarios: class 5 is
non-alphabetic and non-digit with recorded bottom range [0,2] and top range
[8,10]. -/
def uC5 : Unicharset :=
  { u0 with get_top_bottom := fun _ => (0, 2, 8, 10) }

/-- A ResultSet with no matches and blob length 6, as left by a matching
pass that produced nothing (best still the 1.0 sentinel). -/
def rC4 : ADAPT_RESULTS :=
  { ADAPT_RESULTS.Initialize with BlobLength := 6 }

/-- An adaptive store in which every config slot of every class is
Permanent, with ambiguity list [3, -1] (one ambiguity, then the
terminator). -/
def ccC8 : Int → Int → ADAPT_CONFIG :=
  fun _ _ => ADAPT_CONFIG.Perm { Ambigs := [3, -1], FontinfoId := 0 }

/-- A ResultSet whose blob length is 0 holding the single entry for class
5 (recognition failed upstream). -/
def rC9 : ADAPT_RESULTS :=
  { BlobLength := 0, matchList := [entry5], HasNonfragment := true,
    best_match := entry5 }

/-- The sentinel choice emitted for rC9: rating 100, certainty -20. -/
def choiceC9 : BLOB_CHOICE :=
  { unichar_id := 5, rating := 100, certainty := -20, fontinfo_id := -1,
    fontinfo_id2 := -1, min_xheight := 0, max_xheight := 0, adapted := false }


/-- The numeric-mode bad-match trim as the claim words it (refinement
reference): among candidates within the pad of the best rating, keep
non-alphabetic candidates and Roman-numeral letters unchanged, substitute a
rating-preserving copy of the '1' (resp. '0') entry for 'l' (resp. 'O')
when '1' (resp. '0') is not already better-rated than the threshold, and
drop every other alphabetic survivor. -/
def removeBadMatchesNumericClaim (p : Params) (u : Unicharset)
    (r : ADAPT_RESULTS) : ADAPT_RESULTS :=
  let thr := r.best_match.rating + p.matcher_bad_match_pad
  let oneEntry := ScoredUnichar r (u.unichar_to_id ("1"))
  let zeroEntry := ScoredUnichar r (u.unichar_to_id ("0"))
  { r with matchList := r.matchList.filterMap (fun m =>
      if m.rating ≤ thr then
        if u.get_isalpha m.unichar_id = false then some m
        else if u.id_to_unichar m.unichar_id ∈
            (["i", "v", "x", "I", "V", "X"] : List String) then some m
        else if u.id_to_unichar m.unichar_id = "l" ∧
            ¬ oneEntry.rating < thr then
          some { oneEntry with rating := m.rating }
        else if u.id_to_unichar m.unichar_id = "O" ∧
            ¬ zeroEntry.rating < thr then
          some { zeroEntry with rating := m.rating }
        else none
      else none) }

/-- A unicharset for numeric mode: id 1 is "1" (digit), id 2 is "l"
(alphabetic), id 3 is "0" (digit). -/
def uC6 : Unicharset :=
  { get_fragment := fun _ => false,
    get_isalpha := fun id => id == 2,
    get_isdigit := fun id => id == 1 || id == 3,
    id_to_unichar := fun id =>
      if id = 1 then "1" else if id = 2 then "l" else
        if id = 3 then "0" else "",
    contains_unichar := fun s => s == "1" || s == "0",
    unichar_to_id := fun s => if s = "1" then 1 else if s = "0" then 3 else -1,
    get_top_bottom := fun _ => (0, 0, 0, 0) }

/-- The parameter valuation p0 with numeric-only recognition mode on. -/
def pC6 : Params := { p0 with classify_bln_numeric_mode := true }

/-- The entry for the letter l (class 2) rated 0.3. -/
def entryLC6 : ScoredClass :=
  { unichar_id := 2, shape_id := -1, rating := 3/10, adapted := false,
    config := 0, fontinfo_id := -1, fontinfo_id2 := -1 }

/-- The entry for the digit 1 (class 1) rated 0.5. -/
def entry1C6 : ScoredClass :=
  { unichar_id := 1, shape_id := -1, rating := 1/2, adapted := false,
    config := 0, fontinfo_id := -1, fontinfo_id2 := -1 }

/-- The digit-mode scenario of the claim: only {l: 0.3} and {1: 0.5}, best
is the l entry. -/
def rC6 : ADAPT_RESULTS :=
  { BlobLength := 20, matchList := [entryLC6, entry1C6],
    HasNonfragment := true, best_match := entryLC6 }

-- END OF DEFINITIONS (theorems below)

/-- setRatingFirst preserves the length of the match array. -/
theorem setRatingFirst_length (l : List ScoredClass) (id : Int) (v : ℚ) :
    (setRatingFirst l id v).length = l.length := by
  induction l with
  | nil => rfl
  | cons m rest ih =>
      by_cases h : m.unichar_id == id <;> simp [setRatingFirst, h, ih]

/-- setRatingFirst rewrites the rating of the first entry for the id: the
lookup afterwards sees the same slot with the new rating. -/
theorem setRatingFirst_find_self (l : List ScoredClass) (id : Int) (v : ℚ)
    (old : ScoredClass)
    (h : l.find? (fun m => m.unichar_id == id) = some old) :
    (setRatingFirst l id v).find? (fun m => m.unichar_id == id) =
      some { old with rating := v } := by
  induction l with
  | nil => simp at h
  | cons m rest ih =>
      by_cases hm : m.unichar_id == id
      · simp only [List.find?_cons, hm] at h
        cases h
        simp [setRatingFirst, hm, List.find?_cons]
      · simp only [List.find?_cons, hm] at h
        simp [setRatingFirst, hm, List.find?_cons, ih h]

/-- setRatingFirst leaves every unichar id in place, so the per-class entry
count is unchanged (no duplicate slot is created). -/
theorem setRatingFirst_countP (l : List ScoredClass) (id c : Int) (v : ℚ) :
    (setRatingFirst l id v).countP (fun m => m.unichar_id == c) =
      l.countP (fun m => m.unichar_id == c) := by
  induction l with
  | nil => rfl
  | cons m rest ih =>
      by_cases hm : m.unichar_id == id <;>
        by_cases hc : m.unichar_id == c <;>
          simp [setRatingFirst, hm, List.countP_cons, hc, ih]

/-- Rewriting the first entry for the id to a genuinely different rating
changes the list. -/
theorem setRatingFirst_ne (l : List ScoredClass) (id : Int) (v : ℚ)
    (old : ScoredClass)
    (h : l.find? (fun m => m.unichar_id == id) = some old)
    (hv : old.rating ≠ v) : setRatingFirst l id v ≠ l := by
  induction l with
  | nil => simp at h
  | cons m rest ih =>
      by_cases hm : m.unichar_id == id
      · simp only [List.find?_cons, hm] at h
        cases h
        simp only [setRatingFirst, hm, if_pos]
        intro hcontra
        have := congrArg List.head? hcontra
        simp at this
        exact hv (congrArg ScoredClass.rating this).symm
      · simp only [List.find?_cons, hm] at h
        simp only [setRatingFirst, hm, Bool.false_eq_true, if_neg,
          not_false_iff]
        intro hcontra
        exact ih h (List.tail_eq_of_cons_eq hcontra)

/-- AddNewResult leaves the ResultSet unchanged whenever the (amended)
rejection condition holds. -/
theorem addNewResult_of_reject (p : Params) (u : Unicharset)
    (r : ADAPT_RESULTS) (class_id shape_id : Int) (rating : ℚ)
    (adapted : Bool) (config fontinfo_id fontinfo_id2 : Int)
    (h : addRejectCond p r class_id rating) :
    AddNewResult p u r class_id shape_id rating adapted config fontinfo_id
      fontinfo_id2 = r := by
  cases hom : FindScoredUnichar r class_id with
  | none =>
      rcases h with h1 | ⟨old, hold, _⟩
      · simp [AddNewResult, hom, h1]
      · rw [hom] at hold; cases hold
  | some old =>
      rcases h with h1 | ⟨old2, hold2, hle⟩
      · simp [AddNewResult, hom, h1]
      · rw [hom] at hold2
        cases hold2
        simp [AddNewResult, hom, ge_iff_le, hle]

/-- When the rejection condition fails and an entry for the class exists,
AddNewResult rewrites exactly that entry's rating in place. -/
theorem addNewResult_matchList_some (p : Params) (u : Unicharset)
    (r : ADAPT_RESULTS) (class_id shape_id : Int) (rating : ℚ)
    (adapted : Bool) (config fontinfo_id fontinfo_id2 : Int)
    (old : ScoredClass)
    (hn : ¬ addRejectCond p r class_id rating)
    (hom : FindScoredUnichar r class_id = some old) :
    (AddNewResult p u r class_id shape_id rating adapted config fontinfo_id
      fontinfo_id2).matchList = setRatingFirst r.matchList class_id rating := by
  have hnb1 : ¬(rating > r.best_match.rating + p.matcher_bad_match_pad) :=
    fun hc => hn (Or.inl hc)
  have hlt : rating < old.rating := by
    by_contra hge
    exact hn (Or.inr ⟨old, hom, le_of_not_lt hge⟩)
  have hnge : ¬(rating ≥ old.rating) := not_le_of_lt hlt
  simp only [AddNewResult, hom]
  rw [if_neg (by simp [hnb1, ge_iff_le, hnge])]
  by_cases hfrag : u.get_fragment class_id <;>
    simp [hfrag] <;> split <;> simp

/-- When the rejection condition fails and no entry for the class exists,
AddNewResult appends a fresh slot at the end. -/
theorem addNewResult_matchList_none (p : Params) (u : Unicharset)
    (r : ADAPT_RESULTS) (class_id shape_id : Int) (rating : ℚ)
    (adapted : Bool) (config fontinfo_id fontinfo_id2 : Int)
    (hn : ¬ addRejectCond p r class_id rating)
    (hom : FindScoredUnichar r class_id = none) :
    (AddNewResult p u r class_id shape_id rating adapted config fontinfo_id
      fontinfo_id2).matchList = r.matchList ++
        [{ unichar_id := class_id, shape_id := shape_id, rating := rating,
           adapted := adapted, config := config, fontinfo_id := fontinfo_id,
           fontinfo_id2 := fontinfo_id2 }] := by
  have hnb1 : ¬(rating > r.best_match.rating + p.matcher_bad_match_pad) :=
    fun hc => hn (Or.inl hc)
  simp only [AddNewResult, hom]
  rw [if_neg (by simp [hnb1])]
  by_cases hfrag : u.get_fragment class_id <;>
    simp [hfrag] <;> split <;> simp

/-- C1 (counterexample): with pad 0.15, on the reachable ResultSet
rC1pre = {class 5 at 0.5, class 7 at 0.1 (best)}, the call
AddNewResult(class 5, rating 0.3) is rejected by the code (the ResultSet is
unchanged, class 5 keeps rating 0.5), yet the claim's rejection condition is
false there: 0.3 does exceed best + pad = 0.25, but an entry for class 5
with an equal-or-worse rating (0.5 ≥ 0.3) exists to replace, so the claim
demands acceptance with stored rating min(0.5, 0.3) = 0.3. -/
theorem C1_counterexample :
    ¬ ((AddNewResult p0 u0 rC1pre 5 (-1) (3/10) false 0 (-1) (-1) = rC1pre)
       ↔ ((3:ℚ)/10 > rC1pre.best_match.rating + p0.matcher_bad_match_pad ∧
          ¬ ∃ old, FindScoredUnichar rC1pre 5 = some old ∧
              old.rating ≥ 3/10)) := by
  intro hiff
  have hrej : AddNewResult p0 u0 rC1pre 5 (-1) (3/10) false 0 (-1) (-1) = rC1pre := by
    norm_num [AddNewResult, FindScoredUnichar, p0, u0, rC1pre, entry5, entry7]
  have hclaim := hiff.mp hrej
  exact hclaim.2 ⟨entry5, by norm_num [FindScoredUnichar, rC1pre, entry5, entry7],
    by norm_num [entry5]⟩

/-- C1 (reachability of the counterexample state): rC1pre arises from
Initialize by adding class 5 at rating 0.5 and then class 7 at rating 0.1. -/
theorem rC1pre_reachable :
    rC1pre = applyAdds p0 u0
      [{ class_id := 5, shape_id := -1, rating := 1/2, adapted := false,
         config := 0, fontinfo_id := -1, fontinfo_id2 := -1 },
       { class_id := 7, shape_id := -1, rating := 1/10, adapted := false,
         config := 0, fontinfo_id := -1, fontinfo_id2 := -1 }]
      ADAPT_RESULTS.Initialize := by
  norm_num [applyAdds, AddNewResult, ADAPT_RESULTS.Initialize,
    FindScoredUnichar, p0, u0, rC1pre, entry5, entry7,
    WORST_POSSIBLE_RATING, NO_CLASS, kBlankFontinfoId]

/-- C1 (amended): AddNewResult leaves the ResultSet unchanged iff the new
rating exceeds best + matcher_bad_match_pad OR an entry for the class
already exists with an equal-or-better (less-or-equal) rating; when
accepted with an existing entry, that entry's stored rating becomes the
lower of the old and new ratings in the same slot and no duplicate slot per
class is created; a new slot is appended exactly when the class was
absent. -/
theorem addNewResult_amended (p : Params) (u : Unicharset)
    (r : ADAPT_RESULTS) (class_id shape_id : Int) (rating : ℚ)
    (adapted : Bool) (config fontinfo_id fontinfo_id2 : Int) :
    (AddNewResult p u r class_id shape_id rating adapted config fontinfo_id
        fontinfo_id2 = r ↔ addRejectCond p r class_id rating) ∧
    (∀ old, ¬ addRejectCond p r class_id rating →
      FindScoredUnichar r class_id = some old →
      (AddNewResult p u r class_id shape_id rating adapted config fontinfo_id
          fontinfo_id2).matchList.length = r.matchList.length ∧
      FindScoredUnichar (AddNewResult p u r class_id shape_id rating adapted
          config fontinfo_id fontinfo_id2) class_id =
        some { old with rating := min old.rating rating } ∧
      (AddNewResult p u r class_id shape_id rating adapted config fontinfo_id
          fontinfo_id2).matchList.countP (fun m => m.unichar_id == class_id) =
        r.matchList.countP (fun m => m.unichar_id == class_id)) ∧
    (¬ addRejectCond p r class_id rating →
      FindScoredUnichar r class_id = none →
      (AddNewResult p u r class_id shape_id rating adapted config fontinfo_id
          fontinfo_id2).matchList = r.matchList ++
        [{ unichar_id := class_id, shape_id := shape_id, rating := rating,
           adapted := adapted, config := config, fontinfo_id := fontinfo_id,
           fontinfo_id2 := fontinfo_id2 }]) := by
  refine ⟨⟨?_, addNewResult_of_reject p u r class_id shape_id rating adapted
      config fontinfo_id fontinfo_id2⟩, ?_, ?_⟩
  · intro heq
    by_contra hn
    cases hom : FindScoredUnichar r class_id with
    | some old =>
        have hlt : rating < old.rating := by
          by_contra hge
          exact hn (Or.inr ⟨old, hom, le_of_not_lt hge⟩)
        have hml := addNewResult_matchList_some p u r class_id shape_id rating
          adapted config fontinfo_id fontinfo_id2 old hn hom
        rw [heq] at hml
        exact setRatingFirst_ne r.matchList class_id rating old hom
          (ne_of_gt hlt) hml.symm
    | none =>
        have hml := addNewResult_matchList_none p u r class_id shape_id rating
          adapted config fontinfo_id fontinfo_id2 hn hom
        rw [heq] at hml
        have := congrArg List.length hml
        simp at this
  · intro old hn hom
    have hlt : rating < old.rating := by
      by_contra hge
      exact hn (Or.inr ⟨old, hom, le_of_not_lt hge⟩)
    have hml := addNewResult_matchList_some p u r class_id shape_id rating
      adapted config fontinfo_id fontinfo_id2 old hn hom
    refine ⟨?_, ?_, ?_⟩
    · rw [hml]; exact setRatingFirst_length r.matchList class_id rating
    · show (AddNewResult p u r class_id shape_id rating adapted config
        fontinfo_id fontinfo_id2).matchList.find?
          (fun m => m.unichar_id == class_id) = _
      rw [hml, setRatingFirst_find_self r.matchList class_id rating old hom,
        min_eq_right (le_of_lt hlt)]
    · rw [hml]; exact setRatingFirst_countP r.matchList class_id class_id rating
  · exact addNewResult_matchList_none p u r class_id shape_id rating adapted
      config fontinfo_id fontinfo_id2

/-- C1 (witness): on rC1pre, adding class 5 at rating 0.05 is accepted (it
is within the pad of best 0.1 and strictly better than the stored 0.5), and
the stored entry for class 5 becomes min(0.5, 0.05) = 0.05 in place. -/
theorem addNewResult_amended_witness :
    (¬ addRejectCond p0 rC1pre 5 (1/20)) ∧
    FindScoredUnichar rC1pre 5 = some entry5 ∧
    FindScoredUnichar (AddNewResult p0 u0 rC1pre 5 (-1) (1/20) false 0 (-1)
        (-1)) 5 = some { entry5 with rating := min entry5.rating (1/20) } := by
  have hfind : FindScoredUnichar rC1pre 5 = some entry5 := by
    norm_num [FindScoredUnichar, rC1pre, entry5, entry7]
  have hno : ¬ addRejectCond p0 rC1pre 5 (1/20) := by
    rintro (h1 | ⟨old, hold, hle⟩)
    · norm_num [rC1pre, entry7, p0] at h1
    · rw [hfind] at hold
      cases hold
      norm_num [entry5] at hle
  exact ⟨hno, hfind,
    ((addNewResult_amended p0 u0 rC1pre 5 (-1) (1/20) false 0 (-1) (-1)).2.1
      entry5 hno hfind).2.1⟩

/-- The best_match field survives an AddNewResult call unchanged unless the
final best-update branch fires. -/
theorem addNewResult_best_eq (p : Params) (u : Unicharset)
    (r : ADAPT_RESULTS) (class_id shape_id : Int) (rating : ℚ)
    (adapted : Bool) (config fontinfo_id fontinfo_id2 : Int)
    (hpad : 0 ≤ p.matcher_bad_match_pad)
    (hinv : ∀ m ∈ r.matchList, u.get_fragment m.unichar_id = false →
      r.best_match.rating ≤ m.rating) :
    (AddNewResult p u r class_id shape_id rating adapted config fontinfo_id
      fontinfo_id2).best_match =
      (if rating < r.best_match.rating ∧ u.get_fragment class_id = false then
        { unichar_id := class_id, shape_id := shape_id, rating := rating,
          adapted := adapted, config := config, fontinfo_id := fontinfo_id,
          fontinfo_id2 := fontinfo_id2 }
      else r.best_match) := by
  by_cases hb1 : rating > r.best_match.rating + p.matcher_bad_match_pad
  · have hnlt : ¬(rating < r.best_match.rating) := by
      have : r.best_match.rating ≤ r.best_match.rating +
          p.matcher_bad_match_pad := le_add_of_nonneg_right hpad
      exact not_lt_of_gt (lt_of_le_of_lt this hb1)
    rw [addNewResult_of_reject p u r class_id shape_id rating adapted config
      fontinfo_id fontinfo_id2 (Or.inl hb1)]
    rw [if_neg (fun hc => hnlt hc.1)]
  · cases hom : FindScoredUnichar r class_id with
    | some old =>
        by_cases hge : rating ≥ old.rating
        · rw [addNewResult_of_reject p u r class_id shape_id rating adapted
            config fontinfo_id fontinfo_id2 (Or.inr ⟨old, hom, hge⟩)]
          by_cases hfrag : u.get_fragment class_id
          · rw [if_neg (by simp [hfrag])]
          · have hid : old.unichar_id = class_id := by
              have := List.find?_some hom
              simpa using this
            have hmem := List.mem_of_find?_eq_some hom
            have hle := hinv old hmem (by rw [hid]; simpa using hfrag)
            have : ¬(rating < r.best_match.rating) :=
              not_lt_of_ge (le_trans hle hge)
            rw [if_neg (fun hc => this hc.1)]
        · simp only [AddNewResult, hom]
          rw [if_neg (by simp [hb1, ge_iff_le]; exact lt_of_not_ge hge)]
          by_cases hfrag : u.get_fragment class_id <;>
            by_cases hr : rating < r.best_match.rating <;>
              simp [hfrag, hr]
    | none =>
        simp only [AddNewResult, hom]
        rw [if_neg (by simp [hb1])]
        by_cases hfrag : u.get_fragment class_id <;>
          by_cases hr : rating < r.best_match.rating <;>
            simp [hfrag, hr]

/-- One AddNewResult call never moves best_match onto a fragment class. -/
theorem addNewResult_best_nonfrag (p : Params) (u : Unicharset)
    (r : ADAPT_RESULTS) (class_id shape_id : Int) (rating : ℚ)
    (adapted : Bool) (config fontinfo_id fontinfo_id2 : Int)
    (h : u.get_fragment r.best_match.unichar_id = false) :
    u.get_fragment ((AddNewResult p u r class_id shape_id rating adapted
      config fontinfo_id fontinfo_id2).best_match.unichar_id) = false := by
  simp only [AddNewResult]
  split
  · exact h
  · cases hom : FindScoredUnichar r class_id <;>
      by_cases hfrag : u.get_fragment class_id <;>
        by_cases hr : rating < r.best_match.rating <;>
          simp [hom, hfrag, hr, h]

/-- C7: the running best is updated to the newly added candidate exactly
when its rating is strictly lower than the current best rating and its
class is not a fragment (stated over states satisfying the AddNewResult
invariants: nonnegative pad and non-fragment entries rated no better than
best); and along any sequence of AddNewResult calls from Initialize the
tracked best never references a fragment class (NO_CLASS, the initial
sentinel, is not a fragment), so in particular when a non-fragment
candidate was added the best is a usable whole-character hypothesis. -/
theorem addNewResult_best_update :
    (∀ (p : Params) (u : Unicharset) (r : ADAPT_RESULTS)
        (class_id shape_id : Int) (rating : ℚ) (adapted : Bool)
        (config fontinfo_id fontinfo_id2 : Int),
      0 ≤ p.matcher_bad_match_pad →
      (∀ m ∈ r.matchList, u.get_fragment m.unichar_id = false →
        r.best_match.rating ≤ m.rating) →
      (AddNewResult p u r class_id shape_id rating adapted config fontinfo_id
        fontinfo_id2).best_match =
        (if rating < r.best_match.rating ∧
            u.get_fragment class_id = false then
          { unichar_id := class_id, shape_id := shape_id, rating := rating,
            adapted := adapted, config := config, fontinfo_id := fontinfo_id,
            fontinfo_id2 := fontinfo_id2 }
        else r.best_match)) ∧
    (∀ (p : Params) (u : Unicharset) (adds : List AddArgs),
      u.get_fragment NO_CLASS = false →
      u.get_fragment ((applyAdds p u adds
        ADAPT_RESULTS.Initialize).best_match.unichar_id) = false) := by
  constructor
  · exact addNewResult_best_eq
  · intro p u adds hnc
    have hgen : ∀ (l : List AddArgs) (r : ADAPT_RESULTS),
        u.get_fragment r.best_match.unichar_id = false →
        u.get_fragment ((applyAdds p u l r).best_match.unichar_id) = false := by
      intro l
      induction l with
      | nil => intro r h; exact h
      | cons a rest ih =>
          intro r h
          exact ih _ (addNewResult_best_nonfrag p u r a.class_id a.shape_id
            a.rating a.adapted a.config a.fontinfo_id a.fontinfo_id2 h)
    exact hgen adds ADAPT_RESULTS.Initialize (by simpa [ADAPT_RESULTS.Initialize])

/-- C7 (witness): on rC1pre (pad 0.15 ≥ 0, entries 0.5 and 0.1 both at
least the best 0.1), adding non-fragment class 9 at rating 0.05 moves best
to that candidate; and after adding a fragment-free sequence from
Initialize the best is not a fragment. -/
theorem addNewResult_best_update_witness :
    ((0:ℚ) ≤ p0.matcher_bad_match_pad) ∧
    ((AddNewResult p0 u0 rC1pre 9 (-1) (1/20) false 0 (-1) (-1)).best_match =
      (if (1:ℚ)/20 < rC1pre.best_match.rating ∧
          u0.get_fragment 9 = false then
        { unichar_id := 9, shape_id := -1, rating := 1/20, adapted := false,
          config := 0, fontinfo_id := -1, fontinfo_id2 := -1 }
      else rC1pre.best_match)) ∧
    u0.get_fragment ((applyAdds p0 u0
      [{ class_id := 5, shape_id := -1, rating := 1/2, adapted := false,
         config := 0, fontinfo_id := -1, fontinfo_id2 := -1 }]
      ADAPT_RESULTS.Initialize).best_match.unichar_id) = false := by
  have hpad : (0:ℚ) ≤ p0.matcher_bad_match_pad := by norm_num [p0]
  have hinv : ∀ m ∈ rC1pre.matchList,
      u0.get_fragment m.unichar_id = false →
      rC1pre.best_match.rating ≤ m.rating := by
    intro m hm _
    simp only [rC1pre, List.mem_cons, List.not_mem_nil, or_false] at hm
    rcases hm with h | h
    · rw [h]; norm_num [rC1pre, entry5, entry7]
    · rw [h]; norm_num [rC1pre, entry7]
  refine ⟨hpad, ?_, ?_⟩
  · exact addNewResult_best_update.1 p0 u0 rC1pre 9 (-1) (1/20) false 0 (-1)
      (-1) hpad hinv
  · exact addNewResult_best_update.2 p0 u0 _ (by simp [u0])

/-- C2 (counterexample): with use_ambigs_for_adaption disabled (its default),
min = 3 and sufficient = 5, a config of class 1 seen 3 times is in the
middle band and its ambiguous-for-adaption set {2} contains a class with no
permanent config that has never been seen — so the claim demands false —
yet TempConfigReliable returns true, because the ambiguity check only runs
when use_ambigs_for_adaption is enabled. -/
theorem C2_counterexample :
    TempConfigReliable p0 ambigsC2 classesC2 1 { NumTimesSeen := 3 } = true ∧
    p0.use_ambigs_for_adaption = false ∧
    (p0.matcher_min_examples_for_prototyping ≤ 3 ∧
      (3:Int) < p0.matcher_sufficient_examples_for_prototyping) ∧
    (2:Int) ∈ (ambigsC2 1).getD [] ∧
    ¬ (1 ≤ (classesC2 2).NumPermConfigs ∨
        p0.matcher_min_examples_for_prototyping ≤
          (classesC2 2).MaxNumTimesSeen) := by
  refine ⟨by decide, by decide, by decide, by decide, ?_⟩
  decide

/-- C2 (amended): TempConfigReliable returns false whenever times_seen is
below matcher_min_examples_for_prototyping, true whenever it is at least
matcher_sufficient_examples_for_prototyping, and in the middle band checks
the ambiguous-for-adaption set (every member must have a permanent config
or have been seen at least the minimum number of times) only when
use_ambigs_for_adaption is enabled; with that flag disabled the middle band
is always reliable. -/
theorem tempConfigReliable_amended (p : Params)
    (ambigsForAdaption : Int → Option (List Int))
    (classes : Int → AdaptClassCounters) (class_id : Int)
    (config : TEMP_CONFIG)
    (hms : p.matcher_min_examples_for_prototyping ≤
      p.matcher_sufficient_examples_for_prototyping) :
    (config.NumTimesSeen < p.matcher_min_examples_for_prototyping →
      TempConfigReliable p ambigsForAdaption classes class_id config = false) ∧
    (config.NumTimesSeen ≥ p.matcher_sufficient_examples_for_prototyping →
      TempConfigReliable p ambigsForAdaption classes class_id config = true) ∧
    (p.matcher_min_examples_for_prototyping ≤ config.NumTimesSeen →
      config.NumTimesSeen < p.matcher_sufficient_examples_for_prototyping →
      TempConfigReliable p ambigsForAdaption classes class_id config =
        (if p.use_ambigs_for_adaption then
          decide (∀ a ∈ (ambigsForAdaption class_id).getD [],
            1 ≤ (classes a).NumPermConfigs ∨
            p.matcher_min_examples_for_prototyping ≤
              (classes a).MaxNumTimesSeen)
        else true)) := by
  refine ⟨?_, ?_, ?_⟩
  · intro hlt
    have hns : ¬(config.NumTimesSeen ≥
        p.matcher_sufficient_examples_for_prototyping) := by omega
    simp [TempConfigReliable, hns, hlt]
  · intro hge
    simp [TempConfigReliable, hge]
  · intro hmin hsuf
    have hns : ¬(config.NumTimesSeen ≥
        p.matcher_sufficient_examples_for_prototyping) := by omega
    have hnlt : ¬(config.NumTimesSeen <
        p.matcher_min_examples_for_prototyping) := by omega
    simp only [TempConfigReliable, hns, if_false, hnlt, if_neg,
      not_false_iff]
    by_cases hflag : p.use_ambigs_for_adaption
    · simp only [hflag, if_true, if_pos]
      rw [Bool.eq_iff_iff]
      simp only [List.all_eq_true, decide_eq_true_eq]
      constructor
      · intro h a ha
        have := h a ha
        rcases Nat.eq_zero_or_pos (classes a).NumPermConfigs with h0 | h1
        · right
          by_contra hc
          simp [h0] at this
          omega
        · left; exact h1
      · intro h a ha
        rcases h a ha with h1 | h2
        · simp; intro h0; omega
        · simp; intro h0; omega
    · simp [hflag]

/-- C2 (witness): with min = 3 and sufficient = 5, a config seen twice is
not reliable and a config seen five times is reliable. -/
theorem tempConfigReliable_amended_witness :
    (p0.matcher_min_examples_for_prototyping ≤
      p0.matcher_sufficient_examples_for_prototyping) ∧
    TempConfigReliable p0 ambigsC2 classesC2 1 { NumTimesSeen := 2 } = false ∧
    TempConfigReliable p0 ambigsC2 classesC2 1 { NumTimesSeen := 5 } = true := by
  have hms : p0.matcher_min_examples_for_prototyping ≤
      p0.matcher_sufficient_examples_for_prototyping := by decide
  exact ⟨hms,
    (tempConfigReliable_amended p0 ambigsC2 classesC2 1
      { NumTimesSeen := 2 } hms).1 (by decide),
    (tempConfigReliable_amended p0 ambigsC2 classesC2 1
      { NumTimesSeen := 5 } hms).2.1 (by decide)⟩

/-- C5: for every rating correction with a nonnegative misfit penalty
constant, the returned rating is the character-normalization-corrected raw
rating plus tessedit_class_miss_scale times the feature misses plus the
claim's vertical penalty, clamped to never exceed 1.0; the vertical penalty
is classify_misfit_junk_penalty exactly when the class is non-alphabetic,
non-digit, has nonzero normalization factor, and the blob's top or bottom
is outside the recorded range, and 0 otherwise. -/
theorem computeCorrectedRating_spec (p : Params) (u : Unicharset)
    (applyCN : ℚ → Int → Int → ℚ) (unichar_id : Int) (im_rating : ℚ)
    (feature_misses : Int) (bottom top blob_length : Int)
    (cn_factors : Int → Int)
    (hpen : 0 ≤ p.classify_misfit_junk_penalty) :
    ComputeCorrectedRating p u applyCN unichar_id im_rating feature_misses
        bottom top blob_length cn_factors =
      min (applyCN im_rating blob_length (cn_factors unichar_id) +
          p.tessedit_class_miss_scale * (feature_misses : ℚ) +
          verticalPenaltyClaim p u unichar_id bottom top cn_factors)
        WORST_POSSIBLE_RATING ∧
    ComputeCorrectedRating p u applyCN unichar_id im_rating feature_misses
        bottom top blob_length cn_factors ≤ WORST_POSSIBLE_RATING := by
  have hvp : (if ¬ u.get_isalpha unichar_id ∧ ¬ u.get_isdigit unichar_id ∧
      cn_factors unichar_id ≠ 0 ∧ p.classify_misfit_junk_penalty > 0 then
        (if top < (u.get_top_bottom unichar_id).2.2.1 ∨
            top > (u.get_top_bottom unichar_id).2.2.2 ∨
            bottom < (u.get_top_bottom unichar_id).1 ∨
            bottom > (u.get_top_bottom unichar_id).2.1 then
          p.classify_misfit_junk_penalty
        else 0)
      else (0:ℚ)) =
      verticalPenaltyClaim p u unichar_id bottom top cn_factors := by
    rcases lt_or_eq_of_le hpen with hpos | hzero
    · unfold verticalPenaltyClaim
      by_cases ha : u.get_isalpha unichar_id <;>
        by_cases hd : u.get_isdigit unichar_id <;>
          by_cases hcn : cn_factors unichar_id = 0 <;>
            by_cases hr : top < (u.get_top_bottom unichar_id).2.2.1 ∨
              top > (u.get_top_bottom unichar_id).2.2.2 ∨
              bottom < (u.get_top_bottom unichar_id).1 ∨
              bottom > (u.get_top_bottom unichar_id).2.1 <;>
              simp [ha, hd, hcn, hr, hpos]
    · unfold verticalPenaltyClaim
      rw [← hzero]
      simp
  have heq : ComputeCorrectedRating p u applyCN unichar_id im_rating
      feature_misses bottom top blob_length cn_factors =
      min (applyCN im_rating blob_length (cn_factors unichar_id) +
          p.tessedit_class_miss_scale * (feature_misses : ℚ) +
          verticalPenaltyClaim p u unichar_id bottom top cn_factors)
        WORST_POSSIBLE_RATING := by
    simp only [ComputeCorrectedRating]
    rw [hvp]
    rcases le_or_lt (applyCN im_rating blob_length (cn_factors unichar_id) +
        p.tessedit_class_miss_scale * (feature_misses : ℚ) +
        verticalPenaltyClaim p u unichar_id bottom top cn_factors)
        WORST_POSSIBLE_RATING with hle | hgt
    · rw [if_neg (not_lt_of_ge hle), min_eq_left hle]
    · rw [if_pos hgt, min_eq_right (le_of_lt hgt)]
  exact ⟨heq, heq ▸ min_le_right _ _⟩

/-- C5 (witness): with penalty 0.5 ≥ 0, a non-alphabetic non-digit class
with nonzero normalization factor whose blob top 20 lies above the recorded
top range [8,10] gets the corrected rating of the claim's formula. -/
theorem computeCorrectedRating_spec_witness :
    ((0:ℚ) ≤ p0.classify_misfit_junk_penalty) ∧
    ComputeCorrectedRating p0 uC5 (fun rat _ _ => rat) 5 (1/10) 2 1 20 30
        (fun _ => 3) =
      min ((fun (rat : ℚ) (_ _ : Int) => rat) (1/10) 30 ((fun _ => (3:Int)) 5) +
          p0.tessedit_class_miss_scale * ((2:Int) : ℚ) +
          verticalPenaltyClaim p0 uC5 5 1 20 (fun _ => 3))
        WORST_POSSIBLE_RATING := by
  have hpen : (0:ℚ) ≤ p0.classify_misfit_junk_penalty := by norm_num [p0]
  exact ⟨hpen,
    (computeCorrectedRating_spec p0 uC5 (fun rat _ _ => rat) 5 (1/10) 2 1 20
      30 (fun _ => 3) hpen).1⟩

/-- The noise rating is always below the worst possible rating 1. -/
theorem noiseRating_lt_one (p : Params) (blobLength : Int) :
    noiseRating p blobLength < 1 := by
  unfold noiseRating
  set x := (blobLength : ℚ) / p.matcher_avg_noise_size with hx
  have h1 : 0 < 1 + x * x := by nlinarith [mul_self_nonneg x]
  rw [div_lt_one h1]
  nlinarith [mul_self_nonneg x]

/-- The noise rating is strictly increasing in the blob length on
nonnegative lengths, given a positive average noise size. -/
theorem noiseRating_strictMono (p : Params)
    (havg : 0 < p.matcher_avg_noise_size) :
    ∀ L1 L2 : Int, 0 ≤ L1 → L1 < L2 →
      noiseRating p L1 < noiseRating p L2 := by
  intro L1 L2 h0 hlt
  unfold noiseRating
  have hcast : ((L1:ℚ) < (L2:ℚ)) := by exact_mod_cast hlt
  have h0c : ((0:ℚ) ≤ (L1:ℚ)) := by exact_mod_cast h0
  set a := (L1 : ℚ) / p.matcher_avg_noise_size with ha
  set b := (L2 : ℚ) / p.matcher_avg_noise_size with hb
  have hann : 0 ≤ a := div_nonneg h0c (le_of_lt havg)
  have hab : a < b := by
    rw [ha, hb]
    exact div_lt_div_of_pos_right hcast havg
  have hpa : 0 < 1 + a * a := by nlinarith [mul_self_nonneg a]
  have hpb : 0 < 1 + b * b := by nlinarith [mul_self_nonneg b]
  rw [div_lt_div_iff hpa hpb]
  nlinarith [hann, hab]

/-- C4: when the ResultSet has no entry at NO_CLASS, its best rating is
still the 1.0 sentinel (as after a pass with no non-fragment candidate)
and the pad and average noise size are admissible, ClassifyAsNoise appends
exactly one synthetic NO_CLASS candidate whose rating is the saturating
function (blob_length / matcher_avg_noise_size)^2 / (1 + that^2), there is
exactly one NO_CLASS candidate afterwards, and that rating is strictly
increasing in the blob length on nonnegative lengths. -/
theorem classifyAsNoise_spec (p : Params) (u : Unicharset)
    (r : ADAPT_RESULTS)
    (havg : 0 < p.matcher_avg_noise_size)
    (hpad : 0 ≤ p.matcher_bad_match_pad)
    (hbest : r.best_match.rating = WORST_POSSIBLE_RATING)
    (hnone : ∀ m ∈ r.matchList, m.unichar_id ≠ NO_CLASS) :
    (ClassifyAsNoise p u r).matchList = r.matchList ++
      [{ unichar_id := NO_CLASS, shape_id := -1,
         rating := noiseRating p r.BlobLength, adapted := false,
         config := -1, fontinfo_id := kBlankFontinfoId,
         fontinfo_id2 := kBlankFontinfoId }] ∧
    (ClassifyAsNoise p u r).matchList.countP
      (fun m => m.unichar_id == NO_CLASS) = 1 ∧
    (∀ L1 L2 : Int, 0 ≤ L1 → L1 < L2 →
      noiseRating p L1 < noiseRating p L2) := by
  have hfind : FindScoredUnichar r NO_CLASS = none := by
    unfold FindScoredUnichar
    rw [List.find?_eq_none]
    intro m hm
    simpa using hnone m hm
  have hno : ¬ addRejectCond p r NO_CLASS (noiseRating p r.BlobLength) := by
    rintro (h1 | ⟨old, hold, _⟩)
    · rw [hbest] at h1
      have hlt1 := noiseRating_lt_one p r.BlobLength
      unfold WORST_POSSIBLE_RATING at h1
      linarith
    · rw [hfind] at hold
      cases hold
  have happ := addNewResult_matchList_none p u r NO_CLASS (-1)
    (noiseRating p r.BlobLength) false (-1) kBlankFontinfoId kBlankFontinfoId
    hno hfind
  have hzero : r.matchList.countP (fun m => m.unichar_id == NO_CLASS) = 0 := by
    rw [List.countP_eq_zero]
    intro m hm
    simpa using hnone m hm
  refine ⟨happ, ?_, noiseRating_strictMono p havg⟩
  show (ClassifyAsNoise p u r).matchList.countP
    (fun m => m.unichar_id == NO_CLASS) = 1
  unfold ClassifyAsNoise at happ ⊢
  rw [happ, List.countP_append, hzero]
  simp

/-- C4 (witness): on the empty ResultSet with blob length 6 and sentinel
best 1.0, the noise fallback appends the single NO_CLASS candidate. -/
theorem classifyAsNoise_spec_witness :
    ((0:ℚ) < p0.matcher_avg_noise_size) ∧
    ((0:ℚ) ≤ p0.matcher_bad_match_pad) ∧
    rC4.best_match.rating = WORST_POSSIBLE_RATING ∧
    (ClassifyAsNoise p0 u0 rC4).matchList = rC4.matchList ++
      [{ unichar_id := NO_CLASS, shape_id := -1,
         rating := noiseRating p0 rC4.BlobLength, adapted := false,
         config := -1, fontinfo_id := kBlankFontinfoId,
         fontinfo_id2 := kBlankFontinfoId }] := by
  have havg : (0:ℚ) < p0.matcher_avg_noise_size := by norm_num [p0]
  have hpad : (0:ℚ) ≤ p0.matcher_bad_match_pad := by norm_num [p0]
  have hbest : rC4.best_match.rating = WORST_POSSIBLE_RATING := by
    norm_num [rC4, ADAPT_RESULTS.Initialize]
  have hnone : ∀ m ∈ rC4.matchList, m.unichar_id ≠ NO_CLASS := by
    intro m hm
    simp [rC4, ADAPT_RESULTS.Initialize] at hm
  exact ⟨havg, hpad, hbest,
    (classifyAsNoise_spec p0 u0 rC4 havg hpad hbest hnone).1⟩

/-- C3: DoAdaptiveMatch runs only the character-normalized path exactly
when the adapted store has fewer permanent classes than
matcher_permanent_classes_min or tess_cn_matching is set; otherwise the
baseline path runs first and the character-normalized path follows exactly
when the baseline pass produced no matches, or its best rating is worse
than matcher_great_threshold and tess_bn_matching is not forced. -/
theorem doAdaptiveMatch_paths (p : Params) (u : Unicharset)
    (numPermClasses : Int) (charNorm : ADAPT_RESULTS → ADAPT_RESULTS)
    (baseline : ADAPT_RESULTS → ADAPT_RESULTS × Option (List Int))
    (ambigCls : List Int → ADAPT_RESULTS → ADAPT_RESULTS)
    (r : ADAPT_RESULTS) :
    ((DoAdaptiveMatch p u numPermClasses charNorm baseline ambigCls r).2 =
        [MatchPath.CN] ↔
      (numPermClasses < p.matcher_permanent_classes_min ∨
        p.tess_cn_matching = true)) ∧
    (¬(numPermClasses < p.matcher_permanent_classes_min ∨
        p.tess_cn_matching = true) →
      ((DoAdaptiveMatch p u numPermClasses charNorm baseline ambigCls r).2 =
          [MatchPath.BL, MatchPath.CN] ↔
        ((baseline r).1.matchList.length = 0 ∨
          ((baseline r).1.best_match.rating > p.matcher_great_threshold ∧
            p.tess_bn_matching = false)))) := by
  have hsnd : (DoAdaptiveMatch p u numPermClasses charNorm baseline ambigCls
      r).2 = (adaptiveMatchStep p numPermClasses charNorm baseline ambigCls
      r).2 := by
    simp only [DoAdaptiveMatch]
    split <;> rfl
  rw [hsnd]
  by_cases hcond : numPermClasses < p.matcher_permanent_classes_min ∨
      p.tess_cn_matching = true
  · constructor
    · simp only [adaptiveMatchStep]
      rw [if_pos hcond]
      simp [hcond]
    · intro hn
      exact absurd hcond hn
  · constructor
    · simp only [adaptiveMatchStep]
      rw [if_neg hcond]
      by_cases hfall : ((baseline r).1.matchList.length > 0 ∧
          (baseline r).1.best_match.rating > p.matcher_great_threshold ∧
          ¬ p.tess_bn_matching) ∨ (baseline r).1.matchList.length = 0
      · rw [if_pos hfall]
        simp [hcond]
      · rw [if_neg hfall]
        by_cases hamb : ambigsHeadNonneg (baseline r).2 ∧
            ¬ p.tess_bn_matching
        · rw [if_pos hamb]
          simp [hcond]
        · rw [if_neg hamb]
          simp [hcond]
    · intro _
      simp only [adaptiveMatchStep]
      rw [if_neg hcond]
      by_cases hfall : ((baseline r).1.matchList.length > 0 ∧
          (baseline r).1.best_match.rating > p.matcher_great_threshold ∧
          ¬ p.tess_bn_matching) ∨ (baseline r).1.matchList.length = 0
      · rw [if_pos hfall]
        constructor
        · intro _
          rcases hfall with ⟨_, hm, hbn⟩ | hz
          · exact Or.inr ⟨hm, by simpa using hbn⟩
          · exact Or.inl hz
        · intro _
          rfl
      · rw [if_neg hfall]
        have hnot : ¬((baseline r).1.matchList.length = 0 ∨
            ((baseline r).1.best_match.rating > p.matcher_great_threshold ∧
              p.tess_bn_matching = false)) := by
          rintro (hz | ⟨hm, hbn⟩)
          · exact hfall (Or.inr hz)
          · rcases Nat.eq_zero_or_pos (baseline r).1.matchList.length with
              h0 | hgt
            · exact hfall (Or.inr h0)
            · exact hfall (Or.inl ⟨hgt, hm, by simp [hbn]⟩)
        by_cases hamb : ambigsHeadNonneg (baseline r).2 ∧
            ¬ p.tess_bn_matching
        · rw [if_pos hamb]
          constructor
          · intro hcontra
            simp at hcontra
          · intro hcontra
            exact absurd hcontra hnot
        · rw [if_neg hamb]
          constructor
          · intro hcontra
            simp at hcontra
          · intro hcontra
            exact absurd hcontra hnot

/-- C3 (witness): with the permanent-class minimum 1, a store with 0
permanent classes runs only the character-normalized path; a store with 5
permanent classes whose baseline pass produces nothing falls back to the
character-normalized path after the baseline path. -/
theorem doAdaptiveMatch_paths_witness :
    ((0:Int) < p0.matcher_permanent_classes_min ∨ p0.tess_cn_matching = true) ∧
    (DoAdaptiveMatch p0 u0 0 (fun r => r) (fun r => (r, none))
      (fun _ r => r) rC4).2 = [MatchPath.CN] ∧
    (¬((5:Int) < p0.matcher_permanent_classes_min ∨
        p0.tess_cn_matching = true)) ∧
    (DoAdaptiveMatch p0 u0 5 (fun r => r) (fun r => (r, none))
      (fun _ r => r) rC4).2 = [MatchPath.BL, MatchPath.CN] := by
  have h1 : (0:Int) < p0.matcher_permanent_classes_min ∨
      p0.tess_cn_matching = true := Or.inl (by decide)
  have h2 : ¬((5:Int) < p0.matcher_permanent_classes_min ∨
      p0.tess_cn_matching = true) := by decide
  refine ⟨h1, ?_, h2, ?_⟩
  · exact (doAdaptiveMatch_paths p0 u0 0 (fun r => r) (fun r => (r, none))
      (fun _ r => r) rC4).1.mpr h1
  · exact ((doAdaptiveMatch_paths p0 u0 5 (fun r => r) (fun r => (r, none))
      (fun _ r => r) rC4).2 h2).mpr (Or.inl (by simp [rC4, ADAPT_RESULTS.Initialize]))

/-- C8: when BaselineClassifier has a best match (not NO_CLASS), the read
of Config[best_match.config].Perm->Ambigs is well-defined exactly when that
config slot holds the Permanent variant, and in that case the returned
pointer is the permanent config's ambiguity list; on a Temporary slot the
read is the invalid-variant union access. -/
theorem baselineClassifierAmbigs_safety
    (classConfig : Int → Int → ADAPT_CONFIG) (r : ADAPT_RESULTS)
    (hbest : r.best_match.unichar_id ≠ NO_CLASS) :
    ((BaselineClassifierAmbigs classConfig r).isSome ↔
      (classConfig r.best_match.unichar_id
        r.best_match.config).isPermanent = true) ∧
    (∀ d, classConfig r.best_match.unichar_id r.best_match.config =
        ADAPT_CONFIG.Perm d →
      BaselineClassifierAmbigs classConfig r = some (some d.Ambigs)) := by
  unfold BaselineClassifierAmbigs
  rw [if_neg hbest]
  cases hc : classConfig r.best_match.unichar_id r.best_match.config with
  | Temp t =>
      constructor
      · simp [readPermAmbigs, ADAPT_CONFIG.isPermanent]
      · intro d hd
        simp at hd
  | Perm d =>
      constructor
      · simp [readPermAmbigs, ADAPT_CONFIG.isPermanent]
      · intro d2 hd
        cases hd
        simp [readPermAmbigs]

/-- C8 (witness): on rC1pre (best class 7, config 0) with a store whose
config slots are all Permanent with ambiguity list [3, -1], the access is
defined and returns that list. -/
theorem baselineClassifierAmbigs_safety_witness :
    (rC1pre.best_match.unichar_id ≠ NO_CLASS) ∧
    BaselineClassifierAmbigs ccC8 rC1pre = some (some [3, -1]) := by
  have hbest : rC1pre.best_match.unichar_id ≠ NO_CLASS := by decide
  exact ⟨hbest,
    (baselineClassifierAmbigs_safety ccC8 rC1pre hbest).2
      { Ambigs := [3, -1], FontinfoId := 0 } rfl⟩

/-- C10: the empty-Choices fallback allocates a fresh list holding the
single fallback choice (class 0, rating 50, certainty -20) but only the
local pointer is rebound to it: the list object at the caller's pointer is
still empty afterwards, so the fallback is never observable by the
caller. -/
theorem adaptiveClassifierEmptyFallback_unobservable (h : ChoiceHeap)
    (ptr : Nat) (hlt : ptr < h.length) (hempty : heapRead h ptr = []) :
    heapRead (adaptiveClassifierEmptyFallback h ptr).1 ptr = [] ∧
    heapRead (adaptiveClassifierEmptyFallback h ptr).1
      (adaptiveClassifierEmptyFallback h ptr).2 = [fallbackChoice] ∧
    (adaptiveClassifierEmptyFallback h ptr).2 ≠ ptr := by
  have hcond : (heapRead h ptr).length = 0 := by rw [hempty]; rfl
  have hne : h.length ≠ ptr := Nat.ne_of_gt hlt
  unfold adaptiveClassifierEmptyFallback
  rw [if_pos hcond]
  simp only [heapAlloc, heapWrite, heapRead]
  refine ⟨?_, ?_, hne⟩
  · rw [List.getD_eq_getElem?_getD, List.getElem?_set_ne hne,
      List.getElem?_append_left hlt]
    rw [heapRead, List.getD_eq_getElem?_getD] at hempty
    exact hempty
  · rw [List.getD_eq_getElem?_getD, List.getElem?_set_eq_of_lt]
    · rfl
    · simp

/-- C10 (witness): on a heap with one empty Choices list at address 0, the
fallback block leaves that list empty and puts the fallback choice in a
fresh list. -/
theorem adaptiveClassifierEmptyFallback_unobservable_witness :
    ((0:Nat) < (([[]] : ChoiceHeap)).length) ∧
    heapRead ([[]] : ChoiceHeap) 0 = [] ∧
    heapRead (adaptiveClassifierEmptyFallback ([[]] : ChoiceHeap) 0).1 0 = [] ∧
    heapRead (adaptiveClassifierEmptyFallback ([[]] : ChoiceHeap) 0).1
      (adaptiveClassifierEmptyFallback ([[]] : ChoiceHeap) 0).2 =
      [fallbackChoice] := by
  have hlt : (0:Nat) < (([[]] : ChoiceHeap)).length := by decide
  have hempty : heapRead ([[]] : ChoiceHeap) 0 = [] := rfl
  have hmain := adaptiveClassifierEmptyFallback_unobservable ([[]] : ChoiceHeap)
    0 hlt hempty
  exact ⟨hlt, hempty, hmain.1, hmain.2.1⟩

/-- Every choice produced by the conversion loop was in the accumulator
already or carries the score assignment of the claim: the sentinel pair for
a zero blob length, the scaled pair otherwise. -/
theorem convertLoop_scores (u : Unicharset) (blobLength : Int)
    (rating_scale certainty_scale : ℚ) (xheightRange : Int → Int × Int)
    (max_matches : Nat) :
    ∀ (ms : List ScoredClass) (acc : List BLOB_CHOICE) (flag : Bool)
      (c : BLOB_CHOICE),
      c ∈ convertLoop u blobLength rating_scale certainty_scale xheightRange
        max_matches ms acc flag →
      c ∈ acc ∨
      (blobLength = 0 ∧ c.rating = 100 ∧ c.certainty = -20) ∨
      (blobLength ≠ 0 ∧ ∃ m ∈ ms, c.unichar_id = m.unichar_id ∧
        c.rating = m.rating * (rating_scale * (blobLength : ℚ)) ∧
        c.certainty = m.rating * (-certainty_scale)) := by
  intro ms
  induction ms with
  | nil =>
      intro acc flag c hc
      simp only [convertLoop] at hc
      exact Or.inl hc
  | cons next rest ih =>
      intro acc flag c hc
      simp only [convertLoop] at hc
      by_cases hskip : acc.length + 1 = max_matches ∧ ¬flag = true ∧
          u.get_fragment next.unichar_id = true
      · rw [if_pos hskip] at hc
        rcases ih acc flag c hc with h1 | h2 | ⟨hL, m, hm, hrest⟩
        · exact Or.inl h1
        · exact Or.inr (Or.inl h2)
        · exact Or.inr (Or.inr ⟨hL, m, List.mem_cons_of_mem next hm, hrest⟩)
      · rw [if_neg hskip] at hc
        by_cases hL : blobLength = 0
        · simp only [if_pos hL] at hc
          split at hc
          · rcases List.mem_append.mp hc with hin | hone
            · exact Or.inl hin
            · rw [List.mem_singleton] at hone
              subst hone
              exact Or.inr (Or.inl ⟨hL, by simp, by simp⟩)
          · rcases ih _ _ c hc with h1 | h2 | ⟨hL3, m, hm, hrest⟩
            · rcases List.mem_append.mp h1 with hin | hone
              · exact Or.inl hin
              · rw [List.mem_singleton] at hone
                subst hone
                exact Or.inr (Or.inl ⟨hL, by simp, by simp⟩)
            · exact Or.inr (Or.inl h2)
            · exact Or.inr (Or.inr ⟨hL3, m, List.mem_cons_of_mem next hm,
                hrest⟩)
        · simp only [if_neg hL] at hc
          split at hc
          · rcases List.mem_append.mp hc with hin | hone
            · exact Or.inl hin
            · rw [List.mem_singleton] at hone
              subst hone
              exact Or.inr (Or.inr ⟨hL, next, List.mem_cons_self next rest,
                rfl, by simp, by simp⟩)
          · rcases ih _ _ c hc with h1 | h2 | ⟨hL3, m, hm, hrest⟩
            · rcases List.mem_append.mp h1 with hin | hone
              · exact Or.inl hin
              · rw [List.mem_singleton] at hone
                subst hone
                exact Or.inr (Or.inr ⟨hL, next, List.mem_cons_self next rest,
                  rfl, by simp, by simp⟩)
            · exact Or.inr (Or.inl h2)
            · exact Or.inr (Or.inr ⟨hL3, m, List.mem_cons_of_mem next hm,
                hrest⟩)

/-- C9: every candidate emitted by ConvertMatchesToChoices receives the
fixed sentinel (rating 100, certainty -20) when the ResultSet's blob length
is 0, and otherwise receives rating' = rating x rating_scale x blob_length
and certainty = -rating x certainty_scale taken from some source match. -/
theorem convertMatchesToChoices_scores (u : Unicharset)
    (rating_scale certainty_scale : ℚ) (xheightRange : Int → Int × Int)
    (shapeTableMax : Option Nat) (r : ADAPT_RESULTS) :
    ∀ c ∈ ConvertMatchesToChoices u rating_scale certainty_scale xheightRange
        shapeTableMax r,
      (r.BlobLength = 0 → c.rating = 100 ∧ c.certainty = -20) ∧
      (r.BlobLength ≠ 0 → ∃ m ∈ r.matchList, c.unichar_id = m.unichar_id ∧
        c.rating = m.rating * (rating_scale * (r.BlobLength : ℚ)) ∧
        c.certainty = -(m.rating * certainty_scale)) := by
  intro c hc
  unfold ConvertMatchesToChoices at hc
  rcases convertLoop_scores u r.BlobLength rating_scale certainty_scale
      xheightRange _ r.matchList [] false c hc with
    h1 | ⟨hL, hr, hcert⟩ | ⟨hL, m, hm, hid, hr, hcert⟩
  · simp at h1
  · exact ⟨fun _ => ⟨hr, hcert⟩, fun hne => absurd hL hne⟩
  · refine ⟨fun h0 => absurd h0 hL, fun _ => ⟨m, hm, hid, hr, ?_⟩⟩
    rw [hcert]
    ring

/-- C9 (witness): the zero-blob-length ResultSet rC9 emits its class 5
candidate with the sentinel scores. -/
theorem convertMatchesToChoices_scores_witness :
    (choiceC9 ∈ ConvertMatchesToChoices u0 (3/2) 2 (fun _ => (0, 0)) none
      rC9) ∧
    (rC9.BlobLength = 0 → choiceC9.rating = 100 ∧
      choiceC9.certainty = -20) := by
  have hmem : choiceC9 ∈ ConvertMatchesToChoices u0 (3/2) 2 (fun _ => (0, 0))
      none rC9 := by
    simp [ConvertMatchesToChoices, convertLoop, rC9, entry5, u0, choiceC9,
      MAX_MATCHES]
  exact ⟨hmem,
    (convertMatchesToChoices_scores u0 (3/2) 2 (fun _ => (0, 0)) none rC9
      choiceC9 hmem).1⟩
theorem strstrHit_singleton (c : Char) (hc : c ≠ ' ') :
    strstrHit romans (String.mk [c]) =
      decide (c ∈ (['i', 'v', 'x', 'I', 'V', 'X'] : List Char)) := by
  have hdata : (romans).data =
      ['i', ' ', 'v', ' ', 'x', ' ', 'I', ' ', 'V', ' ', 'X'] := rfl
  simp only [strstrHit, hdata, List.tails, List.isPrefixOf, List.any]
  have hsp : (c == ' ') = false := by simp [hc]
  simp [hsp, Bool.beq_eq_decide_eq]

theorem mk_singleton_mem_romanStrings (c : Char) :
    (String.mk [c] ∈ (["i", "v", "x", "I", "V", "X"] : List String)) ↔
      c ∈ (['i', 'v', 'x', 'I', 'V', 'X'] : List Char) := by
  simp [String.ext_iff]

theorem removeBadMatches_numeric_general (p : Params) (u : Unicharset)
    (r : ADAPT_RESULTS)
    (hmode : p.classify_bln_numeric_mode = true)
    (hone : u.contains_unichar ("1") = true)
    (hzero : u.contains_unichar ("0") = true)
    (hsingle : ∀ m ∈ r.matchList, u.get_isalpha m.unichar_id = true →
      ∃ ch : Char, ch ≠ ' ' ∧
        u.id_to_unichar m.unichar_id = String.mk [ch]) :
    RemoveBadMatches p u r = removeBadMatchesNumericClaim p u r := by
  simp only [RemoveBadMatches, removeBadMatchesNumericClaim]
  rw [if_pos hmode, if_pos hone, if_pos hzero]
  congr 1
  apply List.filterMap_congr
  intro m hm
  by_cases hrate : m.rating ≤ r.best_match.rating + p.matcher_bad_match_pad
  · rw [if_pos hrate, if_pos hrate]
    by_cases halpha : u.get_isalpha m.unichar_id
    · obtain ⟨ch, hchsp, hs⟩ := hsingle m hm halpha
      rw [hs, strstrHit_singleton ch hchsp]
      by_cases hrom : ch ∈ (['i', 'v', 'x', 'I', 'V', 'X'] : List Char)
      · rw [if_pos (show ¬ u.get_isalpha m.unichar_id = true ∨
            decide (ch ∈ (['i', 'v', 'x', 'I', 'V', 'X'] : List Char)) =
              true from Or.inr (by simp [hrom]))]
        rw [if_neg (show ¬ (u.get_isalpha m.unichar_id = false) from by
          simp [halpha])]
        rw [if_pos ((mk_singleton_mem_romanStrings ch).mpr hrom)]
      · rw [if_neg (show ¬ (¬ u.get_isalpha m.unichar_id = true ∨
            decide (ch ∈ (['i', 'v', 'x', 'I', 'V', 'X'] : List Char)) =
              true) from by simp [halpha, hrom])]
        rw [if_neg (show ¬ (u.get_isalpha m.unichar_id = false) from by
          simp [halpha])]
        rw [if_neg (fun hmem =>
          hrom ((mk_singleton_mem_romanStrings ch).mp hmem))]
        simp only [ge_iff_le, not_lt]
    · rw [if_pos (Or.inl halpha)]
      rw [if_pos (show u.get_isalpha m.unichar_id = false from by
        simp at halpha; exact halpha)]
  · rw [if_neg hrate, if_neg hrate]

/-- The claim's concrete digit-mode scenario: {l: 0.3, 1: 0.5} filters to
the digit 1 at rating 0.3. -/
theorem removeBadMatches_digit_example :
    RemoveBadMatches pC6 uC6 rC6 =
      { rC6 with matchList :=
          [{ unichar_id := 1, shape_id := -1, rating := 3/10,
             adapted := false, config := 0, fontinfo_id := -1,
             fontinfo_id2 := -1 }] } := by
  have hf1 : FindScoredUnichar rC6 1 = some entry1C6 := by
    norm_num [FindScoredUnichar, rC6, entryLC6, entry1C6]
  have hf0 : FindScoredUnichar rC6 3 = none := by
    norm_num [FindScoredUnichar, rC6, entryLC6, entry1C6]
  have hs1 : ScoredUnichar rC6 1 = entry1C6 := by
    simp [ScoredUnichar, hf1]
  have hs0 : ScoredUnichar rC6 3 =
      { unichar_id := 3, shape_id := -1, rating := WORST_POSSIBLE_RATING,
        adapted := false, config := -1, fontinfo_id := kBlankFontinfoId,
        fontinfo_id2 := kBlankFontinfoId } := by
    simp [ScoredUnichar, hf0]
  have hbm : rC6.best_match.rating = 3/10 := rfl
  have hlist : rC6.matchList = [entryLC6, entry1C6] := rfl
  norm_num +decide [RemoveBadMatches, pC6, p0, uC6, hs1, hs0, hbm, hlist,
    entryLC6, entry1C6, List.filterMap_cons, List.filterMap_nil,
    WORST_POSSIBLE_RATING]

/-- C6: in numeric-only mode (with '1' and '0' present in the unicharset
and alphabetic classes rendered as single non-space characters), the
bad-match trim equals the claim's description: surviving non-alphabetic
and Roman-numeral candidates are kept, a surviving l (resp. O) is replaced
by a copy of the '1' (resp. '0') entry carrying its rating when '1' (resp.
'0') is not already better-rated than the threshold, and all other
alphabetic survivors are dropped; in particular {l: 0.3, 1: 0.5} filters
to '1' at rating 0.3. -/
theorem removeBadMatches_numeric_spec (p : Params) (u : Unicharset)
    (r : ADAPT_RESULTS)
    (hmode : p.classify_bln_numeric_mode = true)
    (hone : u.contains_unichar ("1") = true)
    (hzero : u.contains_unichar ("0") = true)
    (hsingle : ∀ m ∈ r.matchList, u.get_isalpha m.unichar_id = true →
      ∃ ch : Char, ch ≠ ' ' ∧
        u.id_to_unichar m.unichar_id = String.mk [ch]) :
    RemoveBadMatches p u r = removeBadMatchesNumericClaim p u r ∧
    RemoveBadMatches pC6 uC6 rC6 =
      { rC6 with matchList :=
          [{ unichar_id := 1, shape_id := -1, rating := 3/10,
             adapted := false, config := 0, fontinfo_id := -1,
             fontinfo_id2 := -1 }] } :=
  ⟨removeBadMatches_numeric_general p u r hmode hone hzero hsingle,
   removeBadMatches_digit_example⟩

/-- C6 (witness): the hypotheses hold for the digit-mode scenario itself,
and the trim there equals the claim's description. -/
theorem removeBadMatches_numeric_spec_witness :
    (pC6.classify_bln_numeric_mode = true) ∧
    (uC6.contains_unichar ("1") = true) ∧
    (uC6.contains_unichar ("0") = true) ∧
    RemoveBadMatches pC6 uC6 rC6 = removeBadMatchesNumericClaim pC6 uC6 rC6 := by
  have hmode : pC6.classify_bln_numeric_mode = true := rfl
  have hone : uC6.contains_unichar ("1") = true := rfl
  have hzero : uC6.contains_unichar ("0") = true := rfl
  have hsingle : ∀ m ∈ rC6.matchList, uC6.get_isalpha m.unichar_id = true →
      ∃ ch : Char, ch ≠ ' ' ∧
        uC6.id_to_unichar m.unichar_id = String.mk [ch] := by
    intro m hm halpha
    simp only [rC6, List.mem_cons, List.not_mem_nil, or_false] at hm
    rcases hm with h | h <;> subst h
    · exact ⟨'l', by decide, rfl⟩
    · simp [uC6, entry1C6] at halpha
  exact ⟨hmode, hone, hzero,
    (removeBadMatches_numeric_spec pC6 uC6 rC6 hmode hone hzero hsingle).1⟩
